import Mathlib

/-!
# Verification of the heatmap/treemap metrics-derivation variants

Shallow embedding of the metrics-derivation and rendering-adjacent logic of
the repository's three chart variants:

* the d3 treemap variant (`getDataForColumn`, `getDataModel`),
* the DOM heatmap variant (`calculateMetrics`, `renderHeatmap`, `colorGradient`),
* the chart.js matrix variant (the inline cell-background ternary),

together with the shared `renderChart` lifecycle wrapper.

JavaScript numbers are modelled as exact rationals extended with `NaN`,
`Infinity`/`-Infinity` and `undefined`; strings carry category labels.
JS numeric-string coercion and string concatenation are not modelled: no
verified statement evaluates arithmetic on string cells (theorems about the
numeric pipeline carry explicit numeric-cell hypotheses).
-/

/-- A JavaScript value as it flows through the chart code: an exact rational
standing for a JS number, a string, `undefined`, `NaN`, or a signed infinity
(`inf true` is `-Infinity`). -/
inductive JSVal where
  | num (q : ℚ)
  | str (s : String)
  | undef
  | nan
  | inf (neg : Bool)
deriving DecidableEq, Repr

namespace JSVal

/-- JS `ToNumber` coercion as used by the arithmetic operators.
Strings coerce to `NaN` here (category labels are non-numeric; numeric-string
parsing is not modelled). -/
def toNum : JSVal → JSVal
  | num q => num q
  | str _ => nan
  | undef => nan
  | nan => nan
  | inf b => inf b

/-- Is this value a (finite) JS number? -/
def isNum : JSVal → Bool
  | num _ => true
  | _ => false

/-- The rational carried by a finite number, `0` otherwise. -/
def valQ : JSVal → ℚ
  | num q => q
  | _ => 0

/-- JS truthiness: `0`, `NaN`, `undefined` and `""` are falsy. -/
def truthy : JSVal → Bool
  | num q => q != 0
  | str s => s != ""
  | undef => false
  | nan => false
  | inf _ => true

end JSVal

/-- JS `+` restricted to numeric coercion (string concatenation not modelled;
never exercised by a verified statement). -/
def jsAdd (a b : JSVal) : JSVal :=
  match a.toNum, b.toNum with
  | .num x, .num y => .num (x + y)
  | .inf bx, .inf by2 => if bx = by2 then .inf bx else .nan
  | .inf bx, .num _ => .inf bx
  | .num _, .inf by2 => .inf by2
  | _, _ => .nan

/-- JS `-`. -/
def jsSub (a b : JSVal) : JSVal :=
  match a.toNum, b.toNum with
  | .num x, .num y => .num (x - y)
  | .inf bx, .num _ => .inf bx
  | .num _, .inf by2 => .inf (!by2)
  | .inf bx, .inf by2 => if bx = by2 then .nan else .inf bx
  | _, _ => .nan

/-- JS `*`. -/
def jsMul (a b : JSVal) : JSVal :=
  match a.toNum, b.toNum with
  | .num x, .num y => .num (x * y)
  | .inf bx, .inf by2 => .inf (bx != by2)
  | .inf bx, .num y => if y = 0 then .nan else .inf (bx != decide (y < 0))
  | .num x, .inf by2 => if x = 0 then .nan else .inf (by2 != decide (x < 0))
  | _, _ => .nan

/-- JS `/` (`0/0` is `NaN`, `x/0` is a signed infinity; `-0` is not modelled). -/
def jsDiv (a b : JSVal) : JSVal :=
  match a.toNum, b.toNum with
  | .num x, .num y =>
      if y = 0 then (if x = 0 then .nan else .inf (decide (x < 0)))
      else .num (x / y)
  | .num _, .inf _ => .num 0
  | .inf bx, .num y => .inf (bx != decide (y < 0))
  | .inf _, .inf _ => .nan
  | _, _ => .nan

/-- Rounding performed by `Number.prototype.toFixed(2)`: nearest multiple of
`1/100`, ties toward the larger value. -/
def round2 (q : ℚ) : ℚ := (⌊q * 100 + 1 / 2⌋ : ℤ) / 100

/-- `x.toFixed(2)` on the values the code feeds it (always the result of an
arithmetic expression, hence never `undefined`); the source stores the decimal
string, modelled here by the exact rounded rational it denotes. -/
def toFixed2 : JSVal → JSVal
  | .num q => .num (round2 q)
  | .inf b => .inf b
  | _ => .nan

/-- `_.findIndex(l, p)`: index of the first match, `-1` when there is none. -/
def findIndexJS (p : α → Bool) : List α → Int
  | [] => -1
  | a :: l =>
    if p a then 0
    else
      let r := findIndexJS p l
      if r = -1 then -1 else r + 1

/-- JS array indexing `row[i]` by a (possibly `-1`) integer index:
out-of-range access yields `undefined`. -/
def jsIndex (row : List JSVal) (i : Int) : JSVal :=
  if h : 0 ≤ i ∧ i.toNat < row.length then row.get ⟨i.toNat, h.2⟩ else JSVal.undef

/-- JS array indexing `row[i]` by a natural number. -/
def jsIndexNat (row : List JSVal) (i : ℕ) : JSVal :=
  if h : i < row.length then row.get ⟨i, h⟩ else JSVal.undef

/-! ## DOM-heatmap variant (`main.js`, second part): `calculateMetrics`,
`colorGradient`, `renderHeatmap` -/

/-- A column of the chart model as `calculateMetrics` sees it (looked up by
`col.name`). -/
structure NamedColumn where
  name : String
deriving DecidableEq, Repr

/-- The record `{ name, value, change, total }` returned by
`calculateMetrics` for one row. -/
structure BRecord where
  name : JSVal
  value : JSVal
  change : JSVal
  total : JSVal
deriving DecidableEq, Repr

/-- One step of lodash `baseSum`'s loop: skip an `undefined` current value;
otherwise seed an `undefined` accumulator or add. -/
def sumStep (result current : JSVal) : JSVal :=
  match current with
  | .undef => result
  | _ =>
    match result with
    | .undef => current
    | _ => jsAdd result current

/-- lodash `baseSum`: accumulate with `+`, skipping `undefined` entries; the
accumulator starts as `undefined` (so an all-`undefined` array sums to
`undefined`). -/
def baseSum (l : List JSVal) : JSVal :=
  l.foldl sumStep (.undef : JSVal)

/-- `_.sumBy(array, f)`: `0` on an empty array, otherwise `baseSum`. -/
def sumBy (l : List JSVal) : JSVal :=
  if l.isEmpty then .num 0 else baseSum l

/-- `grossMarginIdx = _.findIndex(chartModel.columns, col => col.name === 'Gross Margin')`. -/
def gmIdxOf (columns : List NamedColumn) : Int :=
  findIndexJS (fun col => col.name == "Gross Margin") columns

/-- `grossMarginLYIdx = _.findIndex(chartModel.columns, col => col.name === 'Gross Margin LY')`. -/
def lyIdxOf (columns : List NamedColumn) : Int :=
  findIndexJS (fun col => col.name == "Gross Margin LY") columns

/-- The inline `_.findIndex(chartModel.columns, col => col.name === 'Category')`. -/
def catIdxOf (columns : List NamedColumn) : Int :=
  findIndexJS (fun col => col.name == "Category") columns

/-- `totalValue = _.sumBy(dataArr, row => row[grossMarginIdx])`. -/
def totalValueB (dataArr : List (List JSVal)) (columns : List NamedColumn) : JSVal :=
  sumBy (dataArr.map fun row => jsIndex row (gmIdxOf columns))

/-- The row mapper of `calculateMetrics`: `change` and `total` carry the
`toFixed(2)` display value (modelled as the exact rounded rational). -/
def calcRecord (columns : List NamedColumn) (totalValue : JSVal)
    (row : List JSVal) : BRecord :=
  let name := jsIndex row (catIdxOf columns)
  let value := jsIndex row (gmIdxOf columns)
  let valueLY := jsIndex row (lyIdxOf columns)
  let change :=
    if valueLY.truthy then
      toFixed2 (jsMul (jsDiv (jsSub value valueLY) valueLY) (.num 100))
    else .num 0
  let total := toFixed2 (jsMul (jsDiv value totalValue) (.num 100))
  { name := name, value := value, change := change, total := total }

/-- `calculateMetrics(dataArr, chartModel)` from the DOM-heatmap variant:
column indices found by name in `chartModel.columns`, rows indexed
positionally by those indices.  Note there is no guard on `totalValue`. -/
def calculateMetrics (dataArr : List (List JSVal)) (columns : List NamedColumn) :
    List BRecord :=
  dataArr.map (calcRecord columns (totalValueB dataArr columns))

/-- `colorGradient(value)` of the DOM-heatmap variant. -/
def colorGradient (value : ℚ) : String :=
  if value < -2 then "#ff6666"
  else if value < -1 then "#ff9999"
  else if value < 0 then "#ffcccc"
  else if value < 1 then "#ccffcc"
  else if value < 2 then "#99ff99"
  else "#66cc66"

/-- The inline cell-background ternary of the matrix-heatmap variant
(`backgroundColor: ctx => ...`). -/
def matrixBackgroundColor (value : ℚ) : String :=
  if value < -2 then "#ff6666"
  else if value < -1 then "#ff9999"
  else if value < 0 then "#ffcccc"
  else if value < 1 then "#ccffcc"
  else if value < 2 then "#99ff99"
  else "#66cc66"

/-- `colorGradient` lifted to JS values: all six comparisons are false on
`NaN`/`undefined` (falling through to the final green), `-Infinity` takes the
first branch.  Numeric-string coercion inside comparisons is not modelled
(the embedded `change` field is numeric). -/
def colorGradientJS : JSVal → String
  | .num q => colorGradient q
  | .inf true => "#ff6666"
  | _ => "#66cc66"

/-- One rendered heatmap cell: `renderHeatmap` gives a cell its gradient
background and full inline metrics only when the category's index is below
10. -/
structure HeatCell where
  name : JSVal
  backgroundColor : String
  fullMetrics : Bool
deriving DecidableEq, Repr

/-- `renderHeatmap(categories)`: one cell per category in input order;
`index < 10` decides full labels. -/
def renderHeatmap (categories : List BRecord) : List HeatCell :=
  categories.enum.map fun p =>
    { name := p.2.name
      backgroundColor := colorGradientJS p.2.change
      fullMetrics := decide (p.1 < 10) }

/-! ## Stable descending sort (lodash `_.orderBy(l, [key], [desc])`) -/

/-- The ordering used by `_.orderBy(..., [value], [desc])`: `a` may precede
`b` iff `a`'s key is at least `b`'s.  Keys are taken through `JSVal.valQ`;
lodash's ordering of non-numeric values is not modelled (every theorem that
sorts carries numeric-cell hypotheses). -/
def descByKey (key : α → ℚ) (a b : α) : Prop := key b ≤ key a

instance (key : α → ℚ) : DecidableRel (descByKey key) := fun a b =>
  inferInstanceAs (Decidable (key b ≤ key a))

instance (key : α → ℚ) : IsTotal α (descByKey key) :=
  ⟨fun a b => (le_total (key b) (key a)).imp id id⟩

instance (key : α → ℚ) : IsTrans α (descByKey key) :=
  ⟨fun _ _ _ h1 h2 => le_trans h2 h1⟩

/-- `_.orderBy(l, [key], [desc])` as a stable insertion sort. -/
def orderByDesc (key : α → ℚ) (l : List α) : List α :=
  List.insertionSort (descByKey key) l

/-! ## Treemap variant (`src/unnamed/part_000`): `getDataForColumn`,
`getDataModel`

Column identifiers are modelled as naturals, so that the source's two
different row accesses — `row[idx]` with `idx` found by identity match, and
`row[yAxisColumns[0].id]` with the id used directly as an array index — are
both expressible. -/

/-- A chart column as the SDK hands it over (`column.id`). -/
structure ChartColumn where
  id : ℕ
deriving DecidableEq, Repr

/-- One entry of `chartConfig[0].dimensions`. -/
structure Dimension where
  columns : List ChartColumn
deriving DecidableEq, Repr

/-- The tabular result: `columns` is the row-wise column identifier sequence,
`dataValue` the rows. -/
structure DataArr where
  columns : List ℕ
  dataValue : List (List JSVal)
deriving DecidableEq, Repr

/-- One entry of `chartModel.data`; its `data` field may be absent. -/
structure DataEntry where
  data : Option DataArr
deriving DecidableEq, Repr

/-- One entry of `chartModel.config.chartConfig`; an absent `dimensions`
(caught by the source's `?? []`) is modelled as the empty list. -/
structure ChartConfigEntry where
  dimensions : List Dimension
deriving DecidableEq, Repr

/-- `chartModel.config` with its optional `chartConfig` array. -/
structure ChartConfigHolder where
  chartConfig : Option (List ChartConfigEntry)
deriving DecidableEq, Repr

/-- The chart model as `getDataModel` reads it. -/
structure ChartModel where
  config : Option ChartConfigHolder
  data : Option (List DataEntry)
deriving DecidableEq, Repr

/-- A thrown JS exception (here always a `TypeError` from a property access
on `undefined`). -/
inductive JSError where
  | typeError
deriving DecidableEq, Repr

/-- `getDataForColumn(column, dataArr)`: locate the column's index in
`dataArr.columns` by identity match, then read that position from every
row. -/
def getDataForColumn (column : ChartColumn) (dataArr : DataArr) : List JSVal :=
  let idx := findIndexJS (fun colId => column.id == colId) dataArr.columns
  dataArr.dataValue.map fun row => jsIndex row idx

/-- `chartModel.config?.chartConfig?.[0].dimensions ?? []`: optional chaining
short-circuits an absent `config` or `chartConfig` to `[]`, but an *empty*
`chartConfig` array makes `[0]` yield `undefined` and the unguarded
`.dimensions` access throw. -/
def getConfigDimensions (cm : ChartModel) : Except JSError (List Dimension) :=
  match cm.config with
  | none => .ok []
  | some cfg =>
    match cfg.chartConfig with
    | none => .ok []
    | some [] => .error .typeError
    | some (entry :: _) => .ok entry.dimensions

/-- The per-row record built by `getDataModel` (treemap variant).
`colorValue` is the percentage change; `percentageOfTotal` is the local of
the same name, which the source interpolates (two-decimal formatted) into
the `tooltipLabel`/`dataLabel` display strings — those strings are pure
formatting of the fields kept here and are not modelled separately. -/
structure CatRecord where
  name : JSVal
  value : JSVal
  lyValue : JSVal
  colorValue : JSVal
  percentageOfTotal : JSVal
deriving DecidableEq, Repr

/-- The row mapper of `getDataModel`: note `row[yAxisColumns[0].id]` — the
column id is used directly as a positional index into the row, unlike
`getDataForColumn`'s identity lookup. -/
def deriveRecord (x0 y0 y1 : ChartColumn) (totalValue : JSVal) (row : List JSVal) :
    CatRecord :=
  let value := jsIndexNat row y0.id
  let lyRaw := jsIndexNat row y1.id
  let lyValue := if lyRaw.truthy then lyRaw else value
  let percentageChange :=
    if lyValue ≠ JSVal.num 0 then jsMul (jsDiv (jsSub value lyValue) lyValue) (.num 100)
    else .num 0
  let percentageOfTotal :=
    if totalValue ≠ JSVal.num 0 then jsMul (jsDiv value totalValue) (.num 100)
    else .num 0
  { name := jsIndexNat row x0.id
    value := value
    lyValue := lyValue
    colorValue := percentageChange
    percentageOfTotal := percentageOfTotal }

/-- `getDataForColumn(yAxisColumns[0], dataArr).reduce((sum, value) => sum + value, 0)`. -/
def totalValueOf (y0 : ChartColumn) (dataArr : DataArr) : JSVal :=
  (getDataForColumn y0 dataArr).foldl jsAdd (.num 0)

/-- What `getDataModel` returns; `errors` collects the `console.error`
diagnostics emitted on the empty-result paths (the debug `console.log`
calls of the happy path are not collected). -/
structure GDMOutput where
  dataModel : List CatRecord
  top10 : List CatRecord
  errors : List String
deriving DecidableEq, Repr

/-- The `{ dataModel: [], top10: [] }` early returns, with their diagnostic. -/
def emptyGDM (msg : String) : GDMOutput :=
  { dataModel := [], top10 := [], errors := [msg] }

/-- `getDataModel(chartModel)` of the treemap variant.  The guard
`!xAxisColumns.length || !yAxisColumns.length || yAxisColumns.length < 2`
is equivalent to the happy-path pattern `x0 :: _, y0 :: y1 :: _` failing;
the redundant re-read of `dataArr` (line 29) and its always-passing
truthiness check are collapsed into the first guard. -/
def getDataModel (cm : ChartModel) : Except JSError GDMOutput :=
  match cm.data with
  | none => .ok (emptyGDM "No data available for the chart.")
  | some [] => .error .typeError
  | some (entry :: _) =>
    match entry.data with
    | none => .ok (emptyGDM "No data available for the chart.")
    | some dataArr =>
      match getConfigDimensions cm with
      | .error e => .error e
      | .ok [] => .error .typeError
      | .ok [_] => .error .typeError
      | .ok (d0 :: d1 :: _) =>
        match d0.columns, d1.columns with
        | x0 :: _, y0 :: y1 :: _ =>
          let totalValue := totalValueOf y0 dataArr
          let dataModel := dataArr.dataValue.map (deriveRecord x0 y0 y1 totalValue)
          let top10 := (orderByDesc (fun r => r.value.valQ) dataModel).take 10
          .ok { dataModel := dataModel, top10 := top10, errors := [] }
        | _, _ =>
          .ok (emptyGDM "Invalid column configuration. Ensure the first column is an attribute and the next two are measures.")

/-- A chart model of the shape the host produces: one config entry with an
attribute dimension and a measure dimension, one data entry. -/
def mkChartModel (xcols ycols : List ChartColumn) (cols : List ℕ)
    (rows : List (List JSVal)) : ChartModel :=
  { config := some { chartConfig := some [{ dimensions := [⟨xcols⟩, ⟨ycols⟩] }] }
    data := some [{ data := some { columns := cols, dataValue := rows } }] }

/-- The column list of the DOM-heatmap variant's configuration: Category,
Gross Margin, Gross Margin LY. -/
def demoColumnsB : List NamedColumn :=
  [{ name := "Category" }, { name := "Gross Margin" }, { name := "Gross Margin LY" }]

/-! ## The shared `renderChart` lifecycle wrapper

All three variants wrap their render in the same
`try { emit(RenderStart); render(ctx) } catch (e) { emit(RenderError, ...) }
finally { emit(RenderComplete) }`.  `emitEvent` appends to an event trace;
the render body's outcome (normal return or thrown error) is the
parameter. -/

/-- The `{ hasError: true, error: e }` payload of a `RenderError` event. -/
structure ErrorPayload where
  hasError : Bool
  error : String
deriving DecidableEq, Repr

/-- The three `ChartToTSEvent` lifecycle signals the variants emit. -/
inductive TSEvent where
  | renderStart
  | renderError (payload : ErrorPayload)
  | renderComplete
deriving DecidableEq, Repr

/-- `ctx.emitEvent(...)` as trace extension. -/
def emitEvent (trace : List TSEvent) (e : TSEvent) : List TSEvent := trace ++ [e]

/-- The `renderChart` wrapper: the trace of lifecycle events it emits for a
render body that either returns or throws `e`. -/
def renderChart (renderOutcome : Except String Unit) : List TSEvent :=
  let t := emitEvent [] .renderStart
  match renderOutcome with
  | .ok _ => emitEvent t .renderComplete
  | .error e =>
      emitEvent (emitEvent t (.renderError { hasError := true, error := e }))
        .renderComplete

/-- The claim's six-way case analysis of the shared color scale, with the
two-sided ranges spelled out (refinement target for C10). -/
def colorSpecSix (v : ℚ) : String :=
  if v < -2 then "#ff6666"
  else if -2 ≤ v ∧ v < -1 then "#ff9999"
  else if -1 ≤ v ∧ v < 0 then "#ffcccc"
  else if 0 ≤ v ∧ v < 1 then "#ccffcc"
  else if 1 ≤ v ∧ v < 2 then "#99ff99"
  else "#66cc66"

/-- The spec's Example 1 rows `[("A",100,80), ("B",50,50), ("C",0,10)]`,
laid out as category, current measure, prior measure. -/
def demoRows : List (List JSVal) :=
  [[.str "A", .num 100, .num 80],
   [.str "B", .num 50, .num 50],
   [.str "C", .num 0, .num 10]]

/-- The three equal rows that defeat the rounded shares: each total is
`(1/3*100).toFixed(2) = 33.33`. -/
def demoRowsThird : List (List JSVal) :=
  [[.str "A", .num 1, .num 1],
   [.str "B", .num 1, .num 1],
   [.str "C", .num 1, .num 1]]

/-- A single row with the prior-year cell absent (spec Example 2). -/
def demoRowNoPrior : List (List JSVal) := [[.str "A", .num 5]]

/-- Eleven categories in input order, the last one carrying the largest
value. -/
def demoCats11 : List BRecord :=
  [{ name := .str "A", value := .num 1, change := .num 0, total := .num 0 },
   { name := .str "B", value := .num 2, change := .num 0, total := .num 0 },
   { name := .str "C", value := .num 3, change := .num 0, total := .num 0 },
   { name := .str "D", value := .num 4, change := .num 0, total := .num 0 },
   { name := .str "E", value := .num 5, change := .num 0, total := .num 0 },
   { name := .str "F", value := .num 6, change := .num 0, total := .num 0 },
   { name := .str "G", value := .num 7, change := .num 0, total := .num 0 },
   { name := .str "H", value := .num 8, change := .num 0, total := .num 0 },
   { name := .str "I", value := .num 9, change := .num 0, total := .num 0 },
   { name := .str "J", value := .num 10, change := .num 0, total := .num 0 },
   { name := .str "K", value := .num 100, change := .num 0, total := .num 0 }]

/-! ## Claim C4: error handling of `getDataModel` -/

/-- A chart model whose config is missing the measure dimension entry
entirely (only one entry in `dimensions`), with data present. -/
def demoBadConfig : ChartModel :=
  { config := some { chartConfig := some [{ dimensions := [{ columns := [⟨0⟩] }] }] }
    data := some [{ data := some { columns := [0, 1, 2]
                                   dataValue := [[.str "A", .num 1, .num 2]] } }] }

/-- A config entry with a single dimension (the measure dimension missing). -/
def demoEntryOneDim : ChartConfigEntry := { dimensions := [{ columns := [⟨0⟩] }] }

/-- Example 1's rows as a `DataArr` with identity column ids. -/
def demoArr : DataArr := { columns := [0, 1, 2], dataValue := demoRows }

/-! ## Claim C7: identity lookup vs positional access -/

/-- The identifier-to-cell association of one row: the cell paired with a
column id in the zipped (id, cell) sequence, `undefined` when the id is
absent. -/
def assocLookup (cols : List ℕ) (row : List JSVal) (cid : ℕ) : JSVal :=
  ((cols.zip row).lookup cid).getD (.undef : JSVal)

/-- Column ids `[1, 0, 2]` with the cell for id 1 first. -/
def permArrA : DataArr :=
  { columns := [1, 0, 2], dataValue := [[.num 10, .num 20, .str "A"]] }

/-- The association-preserving permutation of `permArrA`: ids `[0, 1, 2]`
with the cells moved along. -/
def permArrB : DataArr :=
  { columns := [0, 1, 2], dataValue := [[.num 20, .num 10, .str "A"]] }

/-! ## Theorems -/

theorem jsIndex_natCast (row : List JSVal) (i : ℕ) :
    jsIndex row (i : Int) = jsIndexNat row i := by
  unfold jsIndex jsIndexNat
  have h0 : (0 : Int) ≤ (i : Int) := Int.natCast_nonneg i
  have ht : ((i : Int)).toNat = i := by omega
  by_cases h : i < row.length
  · rw [dif_pos ⟨h0, by omega⟩, dif_pos h]
    exact congrArg row.get (Fin.ext ht)
  · rw [dif_neg, dif_neg h]
    rintro ⟨-, hlt⟩
    exact h (ht ▸ hlt)

theorem filter_orderedInsert_key (key : α → ℚ) (v : ℚ) (a : α) (l : List α) :
    (List.orderedInsert (descByKey key) a l).filter (fun x => decide (key x = v)) =
      if key a = v then a :: l.filter (fun x => decide (key x = v))
      else l.filter (fun x => decide (key x = v)) := by
  induction l with
  | nil => by_cases h : key a = v <;> simp [List.orderedInsert, h]
  | cons b l ih =>
    by_cases hins : descByKey key a b
    · by_cases h : key a = v <;>
        simp [List.orderedInsert, hins, h, List.filter_cons]
    · have hb : key a < key b := lt_of_not_le hins
      by_cases h : key a = v
      · have hbv : ¬ (key b = v) := by
          intro hbv; exact absurd (hbv ▸ h ▸ hb) (lt_irrefl _)
        simp [List.orderedInsert, hins, h, hbv, List.filter_cons, ih]
      · by_cases hbv : key b = v <;>
          simp [List.orderedInsert, hins, h, hbv, List.filter_cons, ih]

/-- Stability of the modelled `_.orderBy`: within one key-class the sorted
output lists exactly the input's elements, in input order. -/
theorem filter_orderByDesc (key : α → ℚ) (v : ℚ) (l : List α) :
    (orderByDesc key l).filter (fun x => decide (key x = v)) =
      l.filter (fun x => decide (key x = v)) := by
  induction l with
  | nil => rfl
  | cons a l ih =>
    have step : (orderByDesc key (a :: l)).filter (fun x => decide (key x = v)) =
        if key a = v then a :: (orderByDesc key l).filter (fun x => decide (key x = v))
        else (orderByDesc key l).filter (fun x => decide (key x = v)) :=
      filter_orderedInsert_key key v a (orderByDesc key l)
    by_cases h : key a = v <;> simp [step, h, ih, List.filter_cons]

theorem getDataModel_mk (x0 y0 y1 : ChartColumn) (xr yr : List ChartColumn)
    (cols : List ℕ) (rows : List (List JSVal)) :
    getDataModel (mkChartModel (x0 :: xr) (y0 :: y1 :: yr) cols rows) =
      .ok { dataModel :=
              rows.map (deriveRecord x0 y0 y1 (totalValueOf y0 ⟨cols, rows⟩))
            top10 :=
              (orderByDesc (fun r => r.value.valQ)
                (rows.map (deriveRecord x0 y0 y1 (totalValueOf y0 ⟨cols, rows⟩)))).take 10
            errors := [] } := rfl

/-! ### Numeric evaluation helpers -/

theorem isNum_iff {v : JSVal} : v.isNum = true ↔ ∃ q, v = .num q := by
  cases v <;> simp [JSVal.isNum]

theorem jsAdd_num_num (a b : ℚ) : jsAdd (.num a) (.num b) = .num (a + b) := rfl

theorem jsSub_num_num (a b : ℚ) : jsSub (.num a) (.num b) = .num (a - b) := rfl

theorem jsMul_num_num (a b : ℚ) : jsMul (.num a) (.num b) = .num (a * b) := rfl

theorem jsDiv_num_num (a b : ℚ) (hb : b ≠ 0) :
    jsDiv (.num a) (.num b) = .num (a / b) := by
  simp [jsDiv, JSVal.toNum, hb]

theorem foldl_jsAdd_num (l : List JSVal) (h : ∀ x ∈ l, x.isNum = true) (a : ℚ) :
    l.foldl jsAdd (.num a) = .num (a + (l.map JSVal.valQ).sum) := by
  induction l generalizing a with
  | nil => simp
  | cons x l ih =>
    obtain ⟨q, rfl⟩ := isNum_iff.mp (h x (List.mem_cons_self x l))
    have := ih (fun y hy => h y (List.mem_cons_of_mem _ hy)) (a + q)
    simp only [List.foldl_cons, jsAdd_num_num, this, List.map_cons, List.sum_cons,
      JSVal.valQ]
    ring_nf

theorem getDataForColumn_eq (column : ChartColumn) (dataArr : DataArr)
    (hfind : findIndexJS (fun colId => column.id == colId) dataArr.columns =
      (column.id : Int)) :
    getDataForColumn column dataArr =
      dataArr.dataValue.map fun row => jsIndexNat row column.id := by
  simp [getDataForColumn, hfind, jsIndex_natCast]

theorem totalValueOf_num (y0 : ChartColumn) (cols : List ℕ)
    (rows : List (List JSVal))
    (hfind : findIndexJS (fun colId => y0.id == colId) cols = (y0.id : Int))
    (hnum : ∀ row ∈ rows, (jsIndexNat row y0.id).isNum = true) :
    totalValueOf y0 ⟨cols, rows⟩ =
      .num ((rows.map fun row => (jsIndexNat row y0.id).valQ).sum) := by
  rw [totalValueOf, getDataForColumn_eq y0 ⟨cols, rows⟩ hfind]
  rw [foldl_jsAdd_num]
  · rw [List.map_map]
    norm_num
    rfl
  · intro x hx
    simp only [List.mem_map] at hx
    obtain ⟨row, hrow, rfl⟩ := hx
    exact hnum row hrow

/-- C10: for every numeric input the matrix-heatmap variant's inline
cell-background ternary and the DOM-heatmap variant's `colorGradient` return
the same color string, and both realize exactly the six ranges of the claim:
red shades below 0 at cutoffs -2 and -1, green shades from 0 at cutoffs 1
and 2. -/
theorem C10_color_scales_agree (v : ℚ) :
    matrixBackgroundColor v = colorGradient v ∧ colorGradient v = colorSpecSix v := by
  refine ⟨rfl, ?_⟩
  by_cases h1 : v < -2
  · simp [colorGradient, colorSpecSix, h1]
  · by_cases h2 : v < -1
    · have e1 : -2 ≤ v := le_of_not_lt h1
      simp [colorGradient, colorSpecSix, h1, h2, e1]
    · by_cases h3 : v < 0
      · have e2 : -1 ≤ v := le_of_not_lt h2
        simp [colorGradient, colorSpecSix, h1, h2, h3, e2]
      · by_cases h4 : v < 1
        · have e3 : 0 ≤ v := le_of_not_lt h3
          simp [colorGradient, colorSpecSix, h1, h2, h3, h4, e3]
        · by_cases h5 : v < 2
          · have e4 : 1 ≤ v := le_of_not_lt h4
            simp [colorGradient, colorSpecSix, h1, h2, h3, h4, h5, e4]
          · simp [colorGradient, colorSpecSix, h1, h2, h3, h4, h5]

/-- C9: around every render attempt the trace starts with the render-started
signal, ends with render-complete (also after an error), and contains a
render-error signal, carrying the thrown cause with `hasError` set, exactly
when the render body threw. -/
theorem C9_lifecycle_trace (res : Except String Unit) :
    (renderChart res).head? = some .renderStart ∧
    (renderChart res).getLast? = some .renderComplete ∧
    (∀ p, TSEvent.renderError p ∈ renderChart res ↔
      p.hasError = true ∧ res = .error p.error) ∧
    (∀ p, TSEvent.renderError p ∈ renderChart res →
      renderChart res = [.renderStart, .renderError p, .renderComplete]) := by
  cases res with
  | ok u =>
    refine ⟨rfl, rfl, fun p => ?_, fun p hp => ?_⟩
    · simp [renderChart, emitEvent]
    · simp [renderChart, emitEvent] at hp
  | error e =>
    refine ⟨rfl, rfl, fun p => ?_, fun p hp => ?_⟩
    · constructor
      · intro hp
        simp [renderChart, emitEvent] at hp
        subst hp
        exact ⟨rfl, rfl⟩
      · rintro ⟨h1, h2⟩
        cases p
        cases h2
        simp_all [renderChart, emitEvent]
    · simp [renderChart, emitEvent] at hp
      subst hp
      rfl

/-- Witness for C9 at the concrete outcomes `error "boom"` and `ok`. -/
theorem C9_lifecycle_trace_witness :
    (renderChart (Except.error "boom")).getLast? = some TSEvent.renderComplete ∧
    TSEvent.renderError { hasError := true, error := "boom" } ∈
      renderChart (Except.error "boom") ∧
    (renderChart (Except.ok ())).head? = some TSEvent.renderStart :=
  ⟨(C9_lifecycle_trace (Except.error "boom")).2.1,
   ((C9_lifecycle_trace (Except.error "boom")).2.2.1 _).mpr ⟨rfl, rfl⟩,
   (C9_lifecycle_trace (Except.ok ())).1⟩

/-! ## Field equations of `deriveRecord` -/

theorem deriveRecord_value (x0 y0 y1 : ChartColumn) (tv : JSVal) (row : List JSVal) :
    (deriveRecord x0 y0 y1 tv row).value = jsIndexNat row y0.id := rfl

theorem deriveRecord_name (x0 y0 y1 : ChartColumn) (tv : JSVal) (row : List JSVal) :
    (deriveRecord x0 y0 y1 tv row).name = jsIndexNat row x0.id := rfl

theorem deriveRecord_lyValue (x0 y0 y1 : ChartColumn) (tv : JSVal) (row : List JSVal) :
    (deriveRecord x0 y0 y1 tv row).lyValue =
      if (jsIndexNat row y1.id).truthy then jsIndexNat row y1.id
      else jsIndexNat row y0.id := rfl

theorem deriveRecord_colorValue_def (x0 y0 y1 : ChartColumn) (tv : JSVal)
    (row : List JSVal) :
    (deriveRecord x0 y0 y1 tv row).colorValue =
      if (deriveRecord x0 y0 y1 tv row).lyValue ≠ JSVal.num 0 then
        jsMul
          (jsDiv (jsSub (jsIndexNat row y0.id) (deriveRecord x0 y0 y1 tv row).lyValue)
            ((deriveRecord x0 y0 y1 tv row).lyValue))
          (.num 100)
      else .num 0 := rfl

theorem deriveRecord_pot_def (x0 y0 y1 : ChartColumn) (tv : JSVal) (row : List JSVal) :
    (deriveRecord x0 y0 y1 tv row).percentageOfTotal =
      if tv ≠ JSVal.num 0 then jsMul (jsDiv (jsIndexNat row y0.id) tv) (.num 100)
      else .num 0 := rfl

theorem truthy_num (q : ℚ) : (JSVal.num q).truthy = decide (q ≠ 0) := by
  by_cases h : q = 0 <;> simp [JSVal.truthy, h]

/-- On numeric current and prior cells, `deriveRecord` produces a numeric
`value`, a numeric fallback `lyValue`, and the exact guarded percent-change
formula. -/
theorem deriveRecord_num_spec (x0 y0 y1 : ChartColumn) (tv : JSVal)
    (row : List JSVal) (h0 : (jsIndexNat row y0.id).isNum = true)
    (h1 : (jsIndexNat row y1.id).isNum = true) :
    ∃ qv ql, (deriveRecord x0 y0 y1 tv row).value = .num qv ∧
      (deriveRecord x0 y0 y1 tv row).lyValue = .num ql ∧
      (deriveRecord x0 y0 y1 tv row).colorValue =
        .num (if ql = 0 then 0 else (qv - ql) / ql * 100) := by
  obtain ⟨qv, hv⟩ := isNum_iff.mp h0
  obtain ⟨ql0, hl⟩ := isNum_iff.mp h1
  by_cases hz : ql0 = 0
  · subst hz
    have hly : (deriveRecord x0 y0 y1 tv row).lyValue = .num qv := by
      rw [deriveRecord_lyValue, hl, hv]
      simp [JSVal.truthy]
    refine ⟨qv, qv, by rw [deriveRecord_value, hv], hly, ?_⟩
    rw [deriveRecord_colorValue_def, hly, hv]
    by_cases hq : qv = 0
    · subst hq
      simp
    · have hne : JSVal.num qv ≠ JSVal.num 0 := by simpa using hq
      rw [if_pos hne, jsSub_num_num, jsDiv_num_num _ _ hq, jsMul_num_num,
        if_neg hq]
  · have hly : (deriveRecord x0 y0 y1 tv row).lyValue = .num ql0 := by
      rw [deriveRecord_lyValue, hl]
      simp [JSVal.truthy, hz]
    refine ⟨qv, ql0, by rw [deriveRecord_value, hv], hly, ?_⟩
    rw [deriveRecord_colorValue_def, hly, hv]
    have hne : JSVal.num ql0 ≠ JSVal.num 0 := by simpa using hz
    rw [if_pos hne, jsSub_num_num, jsDiv_num_num _ _ hz, jsMul_num_num, if_neg hz]

/-! ## Field equations of `calcRecord` and claim C1 -/

theorem calcRecord_name (columns : List NamedColumn) (tv : JSVal) (row : List JSVal) :
    (calcRecord columns tv row).name = jsIndex row (catIdxOf columns) := rfl

theorem calcRecord_value (columns : List NamedColumn) (tv : JSVal) (row : List JSVal) :
    (calcRecord columns tv row).value = jsIndex row (gmIdxOf columns) := rfl

theorem calcRecord_change_def (columns : List NamedColumn) (tv : JSVal)
    (row : List JSVal) :
    (calcRecord columns tv row).change =
      if (jsIndex row (lyIdxOf columns)).truthy then
        toFixed2
          (jsMul
            (jsDiv (jsSub (jsIndex row (gmIdxOf columns)) (jsIndex row (lyIdxOf columns)))
              (jsIndex row (lyIdxOf columns)))
            (.num 100))
      else .num 0 := rfl

theorem calcRecord_total_def (columns : List NamedColumn) (tv : JSVal)
    (row : List JSVal) :
    (calcRecord columns tv row).total =
      toFixed2 (jsMul (jsDiv (jsIndex row (gmIdxOf columns)) tv) (.num 100)) := rfl

theorem calculateMetrics_get? (dataArr : List (List JSVal))
    (columns : List NamedColumn) (i : ℕ) :
    (calculateMetrics dataArr columns).get? i =
      (dataArr.get? i).map (calcRecord columns (totalValueB dataArr columns)) := by
  simp [calculateMetrics]

/-- Behaviour of `calcRecord`'s `change` field on falsy and on nonzero
numeric prior cells. -/
theorem calcRecord_change_spec (columns : List NamedColumn) (tv : JSVal)
    (row : List JSVal) :
    ((jsIndex row (lyIdxOf columns)).truthy = false →
      (calcRecord columns tv row).change = .num 0) ∧
    (∀ qv qp, jsIndex row (gmIdxOf columns) = .num qv →
      jsIndex row (lyIdxOf columns) = .num qp → qp ≠ 0 →
      (calcRecord columns tv row).change = .num (round2 ((qv - qp) / qp * 100))) ∧
    (∀ qv qp, jsIndex row (gmIdxOf columns) = .num qv →
      jsIndex row (lyIdxOf columns) = .num qp →
      (calcRecord columns tv row).change.isNum = true) := by
  refine ⟨fun hf => ?_, fun qv qp hv hp hqp => ?_, fun qv qp hv hp => ?_⟩
  · rw [calcRecord_change_def, hf]
    simp
  · rw [calcRecord_change_def, hv, hp, truthy_num, jsSub_num_num,
      jsDiv_num_num _ _ hqp, jsMul_num_num]
    simp [hqp, toFixed2]
  · by_cases hqp : qp = 0
    · subst hqp
      rw [calcRecord_change_def, hp, truthy_num]
      simp [JSVal.isNum]
    · rw [calcRecord_change_def, hv, hp, truthy_num, jsSub_num_num,
        jsDiv_num_num _ _ hqp, jsMul_num_num]
      simp [hqp, toFixed2, JSVal.isNum]

/-- C1 (amended): in the treemap variant each derived record carries finite
numeric `value` and (fallback) `lyValue`, and its percent-change equals the
exact guarded formula `priorValue = 0 ? 0 : (value - priorValue) / priorValue
* 100` — never Infinity or NaN.  In the DOM-heatmap variant a falsy prior
cell gives change `0`, and a nonzero numeric prior gives that formula rounded
to two decimals (the stored `toFixed(2)` display value), again always a
finite number. -/
theorem C1_percentChange_guarded
    (x0 y0 y1 : ChartColumn) (xr yr : List ChartColumn) (cols : List ℕ)
    (rows : List (List JSVal))
    (hnum : ∀ row ∈ rows,
      (jsIndexNat row y0.id).isNum = true ∧ (jsIndexNat row y1.id).isNum = true)
    (rowsB : List (List JSVal)) (columnsB : List NamedColumn) :
    (∃ out, getDataModel (mkChartModel (x0 :: xr) (y0 :: y1 :: yr) cols rows) =
        .ok out ∧
      ∀ r ∈ out.dataModel, ∃ qv ql, r.value = .num qv ∧ r.lyValue = .num ql ∧
        r.colorValue = .num (if ql = 0 then 0 else (qv - ql) / ql * 100)) ∧
    (∀ i row, rowsB.get? i = some row →
      ∃ r, (calculateMetrics rowsB columnsB).get? i = some r ∧
        ((jsIndex row (lyIdxOf columnsB)).truthy = false → r.change = .num 0) ∧
        (∀ qv qp, jsIndex row (gmIdxOf columnsB) = .num qv →
          jsIndex row (lyIdxOf columnsB) = .num qp → qp ≠ 0 →
          r.change = .num (round2 ((qv - qp) / qp * 100))) ∧
        (∀ qv qp, jsIndex row (gmIdxOf columnsB) = .num qv →
          jsIndex row (lyIdxOf columnsB) = .num qp → r.change.isNum = true)) := by
  constructor
  · refine ⟨_, getDataModel_mk x0 y0 y1 xr yr cols rows, ?_⟩
    intro r hr
    simp only [List.mem_map] at hr
    obtain ⟨row, hrow, rfl⟩ := hr
    exact deriveRecord_num_spec x0 y0 y1 _ row (hnum row hrow).1 (hnum row hrow).2
  · intro i row hrow
    refine ⟨calcRecord columnsB (totalValueB rowsB columnsB) row, ?_, ?_, ?_, ?_⟩
    · rw [calculateMetrics_get?, hrow]
      rfl
    · exact (calcRecord_change_spec columnsB _ row).1
    · exact (calcRecord_change_spec columnsB _ row).2.1
    · exact (calcRecord_change_spec columnsB _ row).2.2

/-- C1 counterexample: in the DOM-heatmap variant the stored `change` for a
row with value 1 and prior 3 is the two-decimal rounding `-66.67`, not the
claimed exact `(value - priorValue) / priorValue * 100 = -200/3 =
-66.666...`. -/
theorem C1_counterexample :
    (calculateMetrics [[.str "A", .num 1, .num 3]] demoColumnsB).map
        (fun r => r.change) = [.num (-6667 / 100)] ∧
    ((1 : ℚ) - 3) / 3 * 100 = -200 / 3 ∧
    JSVal.num (-6667 / 100) ≠ JSVal.num (-200 / 3) := by
  have hgm : gmIdxOf demoColumnsB = 1 := by decide
  have hly : lyIdxOf demoColumnsB = 2 := by decide
  have hv : jsIndex [JSVal.str "A", .num 1, .num 3] 1 = .num 1 := by decide
  have hp : jsIndex [JSVal.str "A", .num 1, .num 3] 2 = .num 3 := by decide
  refine ⟨?_, by norm_num, ?_⟩
  · simp only [calculateMetrics, List.map]
    rw [calcRecord_change_def, hgm, hly, hv, hp, truthy_num, jsSub_num_num,
      jsDiv_num_num _ _ (by norm_num), jsMul_num_num]
    norm_num [toFixed2, round2]
  · intro h
    have : (-6667 / 100 : ℚ) = -200 / 3 := by injection h
    norm_num at this

/-- Witness for C1 at the spec's Example 1 data (both variants). -/
theorem C1_percentChange_guarded_witness :
    (∀ row ∈ demoRows,
      (jsIndexNat row 1).isNum = true ∧ (jsIndexNat row 2).isNum = true) ∧
    ((∃ out,
        getDataModel (mkChartModel [⟨0⟩] [⟨1⟩, ⟨2⟩] [0, 1, 2] demoRows) = .ok out ∧
        ∀ r ∈ out.dataModel, ∃ qv ql, r.value = .num qv ∧ r.lyValue = .num ql ∧
          r.colorValue = .num (if ql = 0 then 0 else (qv - ql) / ql * 100)) ∧
      (∀ i row, demoRows.get? i = some row →
        ∃ r, (calculateMetrics demoRows demoColumnsB).get? i = some r ∧
          ((jsIndex row (lyIdxOf demoColumnsB)).truthy = false → r.change = .num 0) ∧
          (∀ qv qp, jsIndex row (gmIdxOf demoColumnsB) = .num qv →
            jsIndex row (lyIdxOf demoColumnsB) = .num qp → qp ≠ 0 →
            r.change = .num (round2 ((qv - qp) / qp * 100))) ∧
          (∀ qv qp, jsIndex row (gmIdxOf demoColumnsB) = .num qv →
            jsIndex row (lyIdxOf demoColumnsB) = .num qp →
            r.change.isNum = true))) :=
  ⟨by decide,
   C1_percentChange_guarded ⟨0⟩ ⟨1⟩ ⟨2⟩ [] [] [0, 1, 2] demoRows (by decide)
     demoRows demoColumnsB⟩

/-! ## Claim C2: percentOfTotal and the zero-total guard -/

theorem foldl_sumStep_zero (l : List JSVal) (h : ∀ x ∈ l, x = JSVal.num 0) :
    l.foldl sumStep (.num 0) = .num 0 := by
  induction l with
  | nil => rfl
  | cons x l ih =>
    rw [List.foldl_cons, h x (List.mem_cons_self x l)]
    have hstep : sumStep (.num 0) (.num 0) = .num 0 := by
      simp [sumStep, jsAdd, JSVal.toNum]
    rw [hstep]
    exact ih fun y hy => h y (List.mem_cons_of_mem _ hy)

theorem sumBy_all_zero (l : List JSVal) (h : ∀ x ∈ l, x = JSVal.num 0) :
    sumBy l = .num 0 := by
  cases l with
  | nil => rfl
  | cons x l =>
    have hne : ((x :: l : List JSVal)).isEmpty = false := rfl
    rw [sumBy, hne, if_neg (by simp)]
    rw [baseSum, List.foldl_cons, h x (List.mem_cons_self x l)]
    have hseed : sumStep .undef (.num 0) = .num 0 := rfl
    rw [hseed]
    exact foldl_sumStep_zero l fun y hy => h y (List.mem_cons_of_mem _ hy)

/-- C2 (amended): in the treemap variant every record's percent-of-total is
the guarded `totalValue = 0 ? 0 : value / totalValue * 100`, with
`totalValue` the sum of `value` across all records; in the DOM-heatmap
variant there is no guard, and a zero total makes every record's stored
`total` NaN. -/
theorem C2_percentOfTotal
    (x0 y0 y1 : ChartColumn) (xr yr : List ChartColumn) (cols : List ℕ)
    (rows : List (List JSVal))
    (hfind : findIndexJS (fun colId => y0.id == colId) cols = (y0.id : Int))
    (hnum : ∀ row ∈ rows, (jsIndexNat row y0.id).isNum = true)
    (rowsB : List (List JSVal)) (columnsB : List NamedColumn)
    (hzero : ∀ row ∈ rowsB, jsIndex row (gmIdxOf columnsB) = .num 0) :
    (∃ out, getDataModel (mkChartModel (x0 :: xr) (y0 :: y1 :: yr) cols rows) =
        .ok out ∧
      (out.dataModel.map fun r => r.value.valQ).sum =
        (rows.map fun row => (jsIndexNat row y0.id).valQ).sum ∧
      ∀ r ∈ out.dataModel,
        r.percentageOfTotal =
          if (rows.map fun row => (jsIndexNat row y0.id).valQ).sum = 0 then .num 0
          else .num (r.value.valQ /
            (rows.map fun row => (jsIndexNat row y0.id).valQ).sum * 100)) ∧
    (∀ r ∈ calculateMetrics rowsB columnsB, r.total = JSVal.nan) := by
  constructor
  · refine ⟨_, getDataModel_mk x0 y0 y1 xr yr cols rows, ?_, ?_⟩
    · rw [List.map_map]
      rfl
    · intro r hr
      simp only [List.mem_map] at hr
      obtain ⟨row, hrow, rfl⟩ := hr
      obtain ⟨qv, hv⟩ := isNum_iff.mp (hnum row hrow)
      have htv := totalValueOf_num y0 cols rows hfind hnum
      rw [deriveRecord_pot_def, htv, deriveRecord_value, hv]
      by_cases hT : (rows.map fun row => (jsIndexNat row y0.id).valQ).sum = 0
      · rw [hT, if_pos rfl, if_neg]
        simp
      · rw [if_neg hT, if_pos (by simpa using hT), jsDiv_num_num _ _ hT,
          jsMul_num_num]
        simp [JSVal.valQ]
  · intro r hr
    simp only [calculateMetrics, List.mem_map] at hr
    obtain ⟨row, hrow, rfl⟩ := hr
    have htv : totalValueB rowsB columnsB = .num 0 := by
      apply sumBy_all_zero
      intro x hx
      simp only [List.mem_map] at hx
      obtain ⟨row2, hrow2, rfl⟩ := hx
      exact hzero row2 hrow2
    rw [calcRecord_total_def, htv, hzero row hrow]
    decide

/-- C2 counterexample: with a single all-zero row the DOM-heatmap variant's
`totalValue` is 0 and the stored `total` is NaN (`(0/0*100).toFixed(2)`),
not the claimed 0. -/
theorem C2_counterexample :
    (calculateMetrics [[.str "A", .num 0, .num 0]] demoColumnsB).map
        (fun r => r.total) = [JSVal.nan] ∧
    JSVal.nan ≠ JSVal.num 0 := by
  constructor
  · have hgm : gmIdxOf demoColumnsB = 1 := by decide
    have htv : totalValueB [[JSVal.str "A", .num 0, .num 0]] demoColumnsB =
        .num 0 := by decide
    have hv : jsIndex [JSVal.str "A", .num 0, .num 0] 1 = .num 0 := by decide
    simp only [calculateMetrics, List.map]
    rw [calcRecord_total_def, htv, hgm, hv]
    decide
  · simp

/-- Witness for C2: Example 1 data on the treemap side, a single all-zero
row on the DOM-heatmap side. -/
theorem C2_percentOfTotal_witness :
    (findIndexJS (fun colId => (1 : ℕ) == colId) [0, 1, 2] = (1 : Int)) ∧
    (∀ row ∈ demoRows, (jsIndexNat row 1).isNum = true) ∧
    (∀ row ∈ [[JSVal.str "A", .num 0, .num 0]],
      jsIndex row (gmIdxOf demoColumnsB) = .num 0) ∧
    ((∃ out,
        getDataModel (mkChartModel [⟨0⟩] [⟨1⟩, ⟨2⟩] [0, 1, 2] demoRows) = .ok out ∧
        (out.dataModel.map fun r => r.value.valQ).sum =
          (demoRows.map fun row => (jsIndexNat row 1).valQ).sum ∧
        ∀ r ∈ out.dataModel,
          r.percentageOfTotal =
            if (demoRows.map fun row => (jsIndexNat row 1).valQ).sum = 0 then .num 0
            else .num (r.value.valQ /
              (demoRows.map fun row => (jsIndexNat row 1).valQ).sum * 100)) ∧
      (∀ r ∈ calculateMetrics [[JSVal.str "A", .num 0, .num 0]] demoColumnsB,
        r.total = JSVal.nan)) :=
  ⟨by decide, by decide, by decide,
   C2_percentOfTotal ⟨0⟩ ⟨1⟩ ⟨2⟩ [] [] [0, 1, 2] demoRows (by decide) (by decide)
     [[JSVal.str "A", .num 0, .num 0]] demoColumnsB (by decide)⟩

/-! ## Claim C8: the shares sum to 100 -/

theorem sum_map_mul_const (l : List ℚ) (c : ℚ) :
    (l.map fun q => q * c).sum = l.sum * c := by
  induction l with
  | nil => simp
  | cons a l ih => simp [ih, add_mul]

theorem sum_div_mul_hundred (l : List ℚ) (hT : l.sum ≠ 0) :
    (l.map fun q => q / l.sum * 100).sum = 100 := by
  have h1 : (l.map fun q => q / l.sum * 100) = l.map fun q => q * (100 / l.sum) := by
    apply List.map_congr_left
    intro a _
    ring
  rw [h1, sum_map_mul_const]
  field_simp

theorem deriveRecord_pot_eval (x0 y0 y1 : ChartColumn) (row : List JSVal)
    (qv T : ℚ) (hv : jsIndexNat row y0.id = .num qv) (hT : T ≠ 0) :
    (deriveRecord x0 y0 y1 (.num T) row).percentageOfTotal =
      .num (qv / T * 100) := by
  rw [deriveRecord_pot_def, if_pos (by simpa using hT), hv,
    jsDiv_num_num _ _ hT, jsMul_num_num]

theorem deriveRecord_pot_zero (x0 y0 y1 : ChartColumn) (row : List JSVal) :
    (deriveRecord x0 y0 y1 (.num 0) row).percentageOfTotal = .num 0 := by
  rw [deriveRecord_pot_def, if_neg]
  simp

/-- C8 (amended): in the treemap variant, with a non-zero total the
(unrounded) percent-of-total values of all records sum to exactly 100 over
exact arithmetic, and with a zero total every record's percent-of-total is
0; in the DOM-heatmap variant the stored two-decimal-rounded shares need not
sum to 100. -/
theorem C8_shares_sum
    (x0 y0 y1 : ChartColumn) (xr yr : List ChartColumn) (cols : List ℕ)
    (rows : List (List JSVal))
    (hfind : findIndexJS (fun colId => y0.id == colId) cols = (y0.id : Int))
    (hnum : ∀ row ∈ rows, (jsIndexNat row y0.id).isNum = true) :
    ∃ out, getDataModel (mkChartModel (x0 :: xr) (y0 :: y1 :: yr) cols rows) =
        .ok out ∧
      ((rows.map fun row => (jsIndexNat row y0.id).valQ).sum ≠ 0 →
        (out.dataModel.map fun r => r.percentageOfTotal.valQ).sum = 100) ∧
      ((rows.map fun row => (jsIndexNat row y0.id).valQ).sum = 0 →
        ∀ r ∈ out.dataModel, r.percentageOfTotal = .num 0) := by
  refine ⟨_, getDataModel_mk x0 y0 y1 xr yr cols rows, fun hT => ?_, fun hT => ?_⟩
  · have htv := totalValueOf_num y0 cols rows hfind hnum
    have hmap :
        ((rows.map (deriveRecord x0 y0 y1 (totalValueOf y0 ⟨cols, rows⟩))).map
            fun r => r.percentageOfTotal.valQ) =
          (rows.map fun row => (jsIndexNat row y0.id).valQ).map
            fun q => q / (rows.map fun row => (jsIndexNat row y0.id).valQ).sum * 100 := by
      rw [List.map_map, List.map_map]
      apply List.map_congr_left
      intro row hrow
      obtain ⟨qv, hv⟩ := isNum_iff.mp (hnum row hrow)
      simp only [Function.comp]
      rw [htv, deriveRecord_pot_eval x0 y0 y1 row qv _ hv hT, hv]
      rfl
    rw [hmap, sum_div_mul_hundred _ hT]
  · intro r hr
    simp only [List.mem_map] at hr
    obtain ⟨row, hrow, rfl⟩ := hr
    have htv := totalValueOf_num y0 cols rows hfind hnum
    rw [htv, hT] at *
    exact deriveRecord_pot_zero x0 y0 y1 row

/-- C8 counterexample: the DOM-heatmap variant's stored shares for three
equal rows are 33.33 each and sum to 99.99, not 100, over exact
arithmetic. -/
theorem C8_counterexample :
    ((calculateMetrics demoRowsThird demoColumnsB).map fun r => r.total.valQ).sum =
      9999 / 100 ∧ (9999 / 100 : ℚ) ≠ 100 := by
  constructor
  · have hgm : gmIdxOf demoColumnsB = 1 := by decide
    have hmap : demoRowsThird.map (fun row => jsIndex row (gmIdxOf demoColumnsB)) =
        [.num 1, .num 1, .num 1] := by decide
    have htv : totalValueB demoRowsThird demoColumnsB = .num 3 := by
      rw [totalValueB, hmap]
      norm_num [sumBy, baseSum, List.foldl, sumStep, jsAdd, JSVal.toNum, List.isEmpty]
    have hv1 : jsIndex [JSVal.str "A", .num 1, .num 1] 1 = .num 1 := by decide
    have hv2 : jsIndex [JSVal.str "B", .num 1, .num 1] 1 = .num 1 := by decide
    have hv3 : jsIndex [JSVal.str "C", .num 1, .num 1] 1 = .num 1 := by decide
    simp only [calculateMetrics, demoRowsThird, List.map_cons, List.map_nil]
    rw [calcRecord_total_def, calcRecord_total_def, calcRecord_total_def]
    simp only [demoRowsThird] at htv
    rw [htv, hgm, hv1, hv2, hv3]
    norm_num [jsDiv, jsMul, JSVal.toNum, toFixed2, round2, JSVal.valQ]
  · norm_num

/-- Witness for C8 at the spec's Example 1 data (total 150). -/
theorem C8_shares_sum_witness :
    (findIndexJS (fun colId => (1 : ℕ) == colId) [0, 1, 2] = (1 : Int)) ∧
    (∀ row ∈ demoRows, (jsIndexNat row 1).isNum = true) ∧
    (∃ out, getDataModel (mkChartModel [⟨0⟩] [⟨1⟩, ⟨2⟩] [0, 1, 2] demoRows) = .ok out ∧
      ((demoRows.map fun row => (jsIndexNat row 1).valQ).sum ≠ 0 →
        (out.dataModel.map fun r => r.percentageOfTotal.valQ).sum = 100) ∧
      ((demoRows.map fun row => (jsIndexNat row 1).valQ).sum = 0 →
        ∀ r ∈ out.dataModel, r.percentageOfTotal = .num 0)) :=
  ⟨by decide, by decide,
   C8_shares_sum ⟨0⟩ ⟨1⟩ ⟨2⟩ [] [] [0, 1, 2] demoRows (by decide) (by decide)⟩

/-! ## Claim C5: totalValue is the full-measure sum -/

theorem foldl_sumStep_num (l : List JSVal) (h : ∀ x ∈ l, x.isNum = true) (a : ℚ) :
    l.foldl sumStep (.num a) = .num (a + (l.map JSVal.valQ).sum) := by
  induction l generalizing a with
  | nil => simp
  | cons x l ih =>
    obtain ⟨q, rfl⟩ := isNum_iff.mp (h x (List.mem_cons_self x l))
    have hstep : sumStep (.num a) (.num q) = .num (a + q) := rfl
    rw [List.foldl_cons, hstep, ih (fun y hy => h y (List.mem_cons_of_mem _ hy))]
    simp only [List.map_cons, List.sum_cons, JSVal.valQ]
    ring_nf

theorem sumBy_all_num (l : List JSVal) (h : ∀ x ∈ l, x.isNum = true) :
    sumBy l = .num ((l.map JSVal.valQ).sum) := by
  cases l with
  | nil => simp [sumBy]
  | cons x l =>
    obtain ⟨q, rfl⟩ := isNum_iff.mp (h x (List.mem_cons_self x l))
    have hne : ((JSVal.num q :: l : List JSVal)).isEmpty = false := rfl
    rw [sumBy, hne, if_neg (by simp), baseSum, List.foldl_cons]
    have hseed : sumStep .undef (.num q) = .num q := rfl
    rw [hseed, foldl_sumStep_num l (fun y hy => h y (List.mem_cons_of_mem _ hy)) q]
    simp [JSVal.valQ]

theorem totalValueB_num (rowsB : List (List JSVal)) (columnsB : List NamedColumn)
    (h : ∀ row ∈ rowsB, (jsIndex row (gmIdxOf columnsB)).isNum = true) :
    totalValueB rowsB columnsB =
      .num ((rowsB.map fun rw => (jsIndex rw (gmIdxOf columnsB)).valQ).sum) := by
  rw [totalValueB, sumBy_all_num]
  · rw [List.map_map]
    rfl
  · intro x hx
    simp only [List.mem_map] at hx
    obtain ⟨row, hrow, rfl⟩ := hx
    exact h row hrow

/-- C5: in both live derivation sites the divisor of percent-of-total is the
sum of the current-measure value over *all* input rows (equivalently all
derived records) — not the top-10 subset and not another column.  (The
matrix variant's `totalValue` at `main.js:113` sums labels but is dead code:
it is never used for any percentage.) -/
theorem C5_totalValue_full_sum
    (x0 y0 y1 : ChartColumn) (xr yr : List ChartColumn) (cols : List ℕ)
    (rows : List (List JSVal))
    (hfind : findIndexJS (fun colId => y0.id == colId) cols = (y0.id : Int))
    (hnum : ∀ row ∈ rows, (jsIndexNat row y0.id).isNum = true)
    (rowsB : List (List JSVal)) (columnsB : List NamedColumn) :
    (∃ out, getDataModel (mkChartModel (x0 :: xr) (y0 :: y1 :: yr) cols rows) =
        .ok out ∧
      ∀ r ∈ out.dataModel,
        r.percentageOfTotal =
          if (out.dataModel.map fun s => s.value.valQ).sum = 0 then .num 0
          else .num (r.value.valQ /
            (out.dataModel.map fun s => s.value.valQ).sum * 100)) ∧
    (∀ i row, rowsB.get? i = some row →
      ∃ r, (calculateMetrics rowsB columnsB).get? i = some r ∧
        r.value = jsIndex row (gmIdxOf columnsB) ∧
        r.total = toFixed2 (jsMul
          (jsDiv (jsIndex row (gmIdxOf columnsB))
            (totalValueB rowsB columnsB)) (.num 100)) ∧
        ((∀ rw ∈ rowsB, (jsIndex rw (gmIdxOf columnsB)).isNum = true) →
          totalValueB rowsB columnsB =
            .num ((rowsB.map fun rw => (jsIndex rw (gmIdxOf columnsB)).valQ).sum))) := by
  constructor
  · refine ⟨_, getDataModel_mk x0 y0 y1 xr yr cols rows, ?_⟩
    have hsum :
        ((rows.map (deriveRecord x0 y0 y1 (totalValueOf y0 ⟨cols, rows⟩))).map
          fun s => s.value.valQ).sum =
          (rows.map fun row => (jsIndexNat row y0.id).valQ).sum := by
      rw [List.map_map]
      rfl
    intro r hr
    simp only [List.mem_map] at hr
    obtain ⟨row, hrow, rfl⟩ := hr
    obtain ⟨qv, hv⟩ := isNum_iff.mp (hnum row hrow)
    have htv := totalValueOf_num y0 cols rows hfind hnum
    rw [hsum, deriveRecord_pot_def, htv, deriveRecord_value, hv]
    by_cases hT : (rows.map fun row => (jsIndexNat row y0.id).valQ).sum = 0
    · rw [hT, if_pos rfl, if_neg]
      simp
    · rw [if_neg hT, if_pos (by simpa using hT), jsDiv_num_num _ _ hT, jsMul_num_num]
      simp [JSVal.valQ]
  · intro i row hrow
    refine ⟨calcRecord columnsB (totalValueB rowsB columnsB) row, ?_, rfl, ?_, ?_⟩
    · rw [calculateMetrics_get?, hrow]
      rfl
    · rw [calcRecord_total_def]
    · intro hB
      exact totalValueB_num rowsB columnsB hB

/-- Witness for C5 at the spec's Example 1 data. -/
theorem C5_totalValue_full_sum_witness :
    (findIndexJS (fun colId => (1 : ℕ) == colId) [0, 1, 2] = (1 : Int)) ∧
    (∀ row ∈ demoRows, (jsIndexNat row 1).isNum = true) ∧
    ((∃ out,
        getDataModel (mkChartModel [⟨0⟩] [⟨1⟩, ⟨2⟩] [0, 1, 2] demoRows) = .ok out ∧
        ∀ r ∈ out.dataModel,
          r.percentageOfTotal =
            if (out.dataModel.map fun s => s.value.valQ).sum = 0 then .num 0
            else .num (r.value.valQ /
              (out.dataModel.map fun s => s.value.valQ).sum * 100)) ∧
      (∀ i row, demoRows.get? i = some row →
        ∃ r, (calculateMetrics demoRows demoColumnsB).get? i = some r ∧
          r.value = jsIndex row (gmIdxOf demoColumnsB) ∧
          r.total = toFixed2 (jsMul
            (jsDiv (jsIndex row (gmIdxOf demoColumnsB))
              (totalValueB demoRows demoColumnsB)) (.num 100)) ∧
          ((∀ rw ∈ demoRows, (jsIndex rw (gmIdxOf demoColumnsB)).isNum = true) →
            totalValueB demoRows demoColumnsB =
              .num ((demoRows.map fun rw =>
                (jsIndex rw (gmIdxOf demoColumnsB)).valQ).sum)))) :=
  ⟨by decide, by decide,
   C5_totalValue_full_sum ⟨0⟩ ⟨1⟩ ⟨2⟩ [] [] [0, 1, 2] demoRows (by decide)
     (by decide) demoRows demoColumnsB⟩

/-! ## Claim C6: falsy prior value falls back to the current value -/

/-- C6: in the treemap variant a row whose prior-year cell is absent or
falsy gets `lyValue = value` and percent-change 0; in the DOM-heatmap
variant such a row's stored change is 0. -/
theorem C6_prior_fallback
    (x0 y0 y1 : ChartColumn) (xr yr : List ChartColumn) (cols : List ℕ)
    (rows rowsB : List (List JSVal)) (columnsB : List NamedColumn) :
    (∀ i row, rows.get? i = some row →
      (jsIndexNat row y1.id).truthy = false →
      (jsIndexNat row y0.id).isNum = true →
      ∃ out r,
        getDataModel (mkChartModel (x0 :: xr) (y0 :: y1 :: yr) cols rows) = .ok out ∧
        out.dataModel.get? i = some r ∧ r.lyValue = r.value ∧
        r.colorValue = .num 0) ∧
    (∀ i row, rowsB.get? i = some row →
      (jsIndex row (lyIdxOf columnsB)).truthy = false →
      ∃ r, (calculateMetrics rowsB columnsB).get? i = some r ∧
        r.change = .num 0) := by
  constructor
  · intro i row hrowi hfalsy hnum0
    obtain ⟨qv, hv⟩ := isNum_iff.mp hnum0
    refine ⟨_, deriveRecord x0 y0 y1 (totalValueOf y0 ⟨cols, rows⟩) row,
      getDataModel_mk x0 y0 y1 xr yr cols rows, ?_, ?_, ?_⟩
    · have hmap :
          (rows.map (deriveRecord x0 y0 y1 (totalValueOf y0 ⟨cols, rows⟩))).get? i =
            (rows.get? i).map (deriveRecord x0 y0 y1 (totalValueOf y0 ⟨cols, rows⟩)) := by
        simp
      show (rows.map (deriveRecord x0 y0 y1 (totalValueOf y0 ⟨cols, rows⟩))).get? i =
        some (deriveRecord x0 y0 y1 (totalValueOf y0 ⟨cols, rows⟩) row)
      rw [hmap, hrowi]
      rfl
    · rw [deriveRecord_lyValue, hfalsy, deriveRecord_value]
      simp
    · have hly : (deriveRecord x0 y0 y1 (totalValueOf y0 ⟨cols, rows⟩) row).lyValue =
          .num qv := by
        rw [deriveRecord_lyValue, hfalsy, hv]
        simp
      rw [deriveRecord_colorValue_def, hly, hv]
      by_cases hq : qv = 0
      · subst hq
        simp
      · have hne : JSVal.num qv ≠ JSVal.num 0 := by simpa using hq
        rw [if_pos hne, jsSub_num_num, jsDiv_num_num _ _ hq, jsMul_num_num]
        norm_num
  · intro i row hrowi hfalsy
    refine ⟨calcRecord columnsB (totalValueB rowsB columnsB) row, ?_, ?_⟩
    · rw [calculateMetrics_get?, hrowi]
      rfl
    · exact (calcRecord_change_spec columnsB _ row).1 hfalsy

/-- Witness for C6 at a row whose prior-year cell is absent. -/
theorem C6_prior_fallback_witness :
    (demoRowNoPrior.get? 0 = some [JSVal.str "A", .num 5]) ∧
    ((jsIndexNat [JSVal.str "A", .num 5] 2).truthy = false) ∧
    ((jsIndexNat [JSVal.str "A", .num 5] 1).isNum = true) ∧
    ((jsIndex [JSVal.str "A", .num 5] (lyIdxOf demoColumnsB)).truthy = false) ∧
    (∃ out r,
      getDataModel (mkChartModel [⟨0⟩] [⟨1⟩, ⟨2⟩] [0, 1, 2] demoRowNoPrior) =
        .ok out ∧
      out.dataModel.get? 0 = some r ∧ r.lyValue = r.value ∧
      r.colorValue = .num 0) ∧
    (∃ r, (calculateMetrics demoRowNoPrior demoColumnsB).get? 0 = some r ∧
      r.change = .num 0) :=
  ⟨rfl, by decide, by decide, by decide,
   (C6_prior_fallback ⟨0⟩ ⟨1⟩ ⟨2⟩ [] [] [0, 1, 2] demoRowNoPrior demoRowNoPrior
       demoColumnsB).1 0 [JSVal.str "A", .num 5] rfl (by decide) (by decide),
   (C6_prior_fallback ⟨0⟩ ⟨1⟩ ⟨2⟩ [] [] [0, 1, 2] demoRowNoPrior demoRowNoPrior
       demoColumnsB).2 0 [JSVal.str "A", .num 5] rfl (by decide)⟩

/-! ## Claim C3: the top-10 subset -/

theorem filter_take_isPrefix (p : α → Bool) (n : ℕ) (l : List α) :
    (l.take n).filter p <+: l.filter p := by
  induction l generalizing n with
  | nil => simp
  | cons a l ih =>
    cases n with
    | zero => simp
    | succ n =>
      rw [List.take_succ_cons, List.filter_cons, List.filter_cons]
      by_cases hpa : p a = true
      · rw [if_pos hpa, if_pos hpa]
        obtain ⟨t, ht⟩ := ih n
        exact ⟨t, by rw [List.cons_append, ht]⟩
      · rw [if_neg hpa, if_neg hpa]
        exact ih n

/-- C3 (amended): in the treemap variant `top10` is the first
`min(10, recordCount)` of the stable descending sort of all records by
value — a subset of the record set, sorted, stable on ties — and the
primary record sequence stays one record per input row in input order; in
the DOM-heatmap variant full labels go to the first 10 categories in input
order (`index < 10`), regardless of value. -/
theorem C3_top10
    (x0 y0 y1 : ChartColumn) (xr yr : List ChartColumn) (cols : List ℕ)
    (rows : List (List JSVal)) (cats : List BRecord) :
    (∃ out, getDataModel (mkChartModel (x0 :: xr) (y0 :: y1 :: yr) cols rows) =
        .ok out ∧
      out.dataModel.length = rows.length ∧
      (out.dataModel.map fun r => r.name) =
        (rows.map fun row => jsIndexNat row x0.id) ∧
      out.top10.length = min 10 rows.length ∧
      (∀ r ∈ out.top10, r ∈ out.dataModel) ∧
      List.Sorted (descByKey fun r : CatRecord => r.value.valQ) out.top10 ∧
      (∀ v : ℚ,
        out.top10.filter (fun r => decide (r.value.valQ = v)) <+:
          out.dataModel.filter (fun r => decide (r.value.valQ = v)))) ∧
    ((renderHeatmap cats).map fun c => c.fullMetrics) =
      ((List.range cats.length).map fun i => decide (i < 10)) := by
  constructor
  · refine ⟨_, getDataModel_mk x0 y0 y1 xr yr cols rows, ?_, ?_, ?_, ?_, ?_, ?_⟩
    · simp
    · rw [List.map_map]
      rfl
    · show ((orderByDesc (fun r : CatRecord => r.value.valQ)
        (rows.map (deriveRecord x0 y0 y1 (totalValueOf y0 ⟨cols, rows⟩)))).take 10).length =
          min 10 rows.length
      rw [List.length_take, orderByDesc,
        (List.perm_insertionSort _ _).length_eq, List.length_map]
    · intro r hr
      have h1 : r ∈ orderByDesc (fun r : CatRecord => r.value.valQ)
          (rows.map (deriveRecord x0 y0 y1 (totalValueOf y0 ⟨cols, rows⟩))) :=
        List.mem_of_mem_take hr
      exact (List.perm_insertionSort _ _).mem_iff.mp h1
    · exact List.Pairwise.sublist (List.take_sublist _ _)
        (List.sorted_insertionSort _ _)
    · intro v
      have h1 := filter_take_isPrefix
        (fun r : CatRecord => decide (r.value.valQ = v)) 10
        (orderByDesc (fun r : CatRecord => r.value.valQ)
          (rows.map (deriveRecord x0 y0 y1 (totalValueOf y0 ⟨cols, rows⟩))))
      have h2 := filter_orderByDesc (fun r : CatRecord => r.value.valQ) v
        (rows.map (deriveRecord x0 y0 y1 (totalValueOf y0 ⟨cols, rows⟩)))
      rw [h2] at h1
      exact h1
  · have h1 : (renderHeatmap cats).map (fun c => c.fullMetrics) =
        cats.enum.map fun p => decide (p.1 < 10) := by
      rw [renderHeatmap, List.map_map]
      rfl
    rw [h1, List.enum_eq_zip_range]
    have h2 : ((List.range cats.length).zip cats).map (fun p => decide (p.1 < 10)) =
        (((List.range cats.length).zip cats).map Prod.fst).map
          fun i => decide (i < 10) := by
      rw [List.map_map]
      rfl
    rw [h2, List.map_fst_zip]
    simp

/-- C3 counterexample: `renderHeatmap` gives full labels to the first ten
categories in input order, so the highest-value category "K" (index 10) is
excluded, and the full-label set differs from the first ten of the stable
descending sort. -/
theorem C3_counterexample :
    ((renderHeatmap demoCats11).map fun c => c.fullMetrics) =
      [true, true, true, true, true, true, true, true, true, true, false] ∧
    ((orderByDesc (fun r : BRecord => r.value.valQ) demoCats11).take 10).map
        (fun r => r.name) =
      [.str "K", .str "J", .str "I", .str "H", .str "G", .str "F", .str "E",
       .str "D", .str "C", .str "B"] ∧
    ((renderHeatmap demoCats11).filterMap fun c =>
        if c.fullMetrics then some c.name else none) ≠
      (((orderByDesc (fun r : BRecord => r.value.valQ) demoCats11).take 10).map
        fun r => r.name) := by
  refine ⟨by decide, by decide, by decide⟩

/-- Witness for C3 at Example 1's three rows and the eleven demo
categories. -/
theorem C3_top10_witness :
    (∃ out, getDataModel (mkChartModel [⟨0⟩] [⟨1⟩, ⟨2⟩] [0, 1, 2] demoRows) =
        .ok out ∧
      out.dataModel.length = demoRows.length ∧
      (out.dataModel.map fun r => r.name) =
        (demoRows.map fun row => jsIndexNat row 0) ∧
      out.top10.length = min 10 demoRows.length ∧
      (∀ r ∈ out.top10, r ∈ out.dataModel) ∧
      List.Sorted (descByKey fun r : CatRecord => r.value.valQ) out.top10 ∧
      (∀ v : ℚ,
        out.top10.filter (fun r => decide (r.value.valQ = v)) <+:
          out.dataModel.filter (fun r => decide (r.value.valQ = v)))) ∧
    ((renderHeatmap demoCats11).map fun c => c.fullMetrics) =
      ((List.range demoCats11.length).map fun i => decide (i < 10)) :=
  C3_top10 ⟨0⟩ ⟨1⟩ ⟨2⟩ [] [] [0, 1, 2] demoRows demoCats11

/-- C4 counterexample: a mapping missing the measure dimension makes
`getDataModel` throw a TypeError (`configDimensions[1].columns` on
`undefined`) instead of returning an empty record sequence plus a
diagnostic. -/
theorem C4_counterexample :
    getDataModel demoBadConfig = .error JSError.typeError ∧
    (getDataModel demoBadConfig).isOk = false := ⟨rfl, rfl⟩

/-- C4 (amended): an absent `chartModel.data` or absent `data[0].data`, and
missing role *columns* when both dimension entries exist, yield an empty
record sequence plus one diagnostic and nothing is thrown; but an empty
`chartConfig` array or missing dimension entries raise a TypeError (caught
only at the `renderChart` boundary), and a tabular result referencing
columns not present still yields one record per row, not an empty
sequence. -/
theorem C4_guards
    (cfg : Option ChartConfigHolder) (rest : List DataEntry) (arr : DataArr)
    (xcols ycols : List ChartColumn) (cols : List ℕ) (rows : List (List JSVal))
    (entry : ChartConfigEntry) (restC : List ChartConfigEntry)
    (hbad : xcols = [] ∨ ycols.length < 2)
    (hdim : entry.dimensions.length < 2) :
    getDataModel { config := cfg, data := none } =
      .ok (emptyGDM "No data available for the chart.") ∧
    getDataModel { config := cfg, data := some ({ data := none } :: rest) } =
      .ok (emptyGDM "No data available for the chart.") ∧
    getDataModel (mkChartModel xcols ycols cols rows) =
      .ok (emptyGDM "Invalid column configuration. Ensure the first column is an attribute and the next two are measures.") ∧
    getDataModel { config := some { chartConfig := some [] }
                   data := some ({ data := some arr } :: rest) } =
      .error .typeError ∧
    getDataModel { config := some { chartConfig := some (entry :: restC) }
                   data := some ({ data := some arr } :: rest) } =
      .error .typeError ∧
    (∀ x0 y0 y1 : ChartColumn, ∀ xr yr : List ChartColumn,
      ∃ out, getDataModel (mkChartModel (x0 :: xr) (y0 :: y1 :: yr) cols rows) =
        .ok out ∧ out.dataModel.length = rows.length ∧ out.errors = []) := by
  refine ⟨rfl, rfl, ?_, rfl, ?_, ?_⟩
  · rcases hbad with h | h
    · subst h
      cases ycols with
      | nil => rfl
      | cons y0 ys =>
        cases ys with
        | nil => rfl
        | cons y1 ys2 => rfl
    · cases xcols with
      | nil =>
        cases ycols with
        | nil => rfl
        | cons y0 ys =>
          cases ys with
          | nil => rfl
          | cons y1 ys2 => exact absurd h (by simp only [List.length_cons]; omega)
      | cons x0 xs =>
        cases ycols with
        | nil => rfl
        | cons y0 ys =>
          cases ys with
          | nil => rfl
          | cons y1 ys2 => exact absurd h (by simp only [List.length_cons]; omega)
  · cases hd : entry.dimensions with
    | nil =>
      show getDataModel _ = _
      simp only [getDataModel, getConfigDimensions, hd]
    | cons d ds =>
      cases ds with
      | nil =>
        simp only [getDataModel, getConfigDimensions, hd]
      | cons d2 ds2 =>
        rw [hd] at hdim
        exact absurd hdim (by simp only [List.length_cons]; omega)
  · intro x0 y0 y1 xr yr
    exact ⟨_, getDataModel_mk x0 y0 y1 xr yr cols rows, by simp, rfl⟩

/-- Witness for C4 with an empty attribute dimension and a single-entry
`dimensions` array. -/
theorem C4_guards_witness :
    (([] : List ChartColumn) = [] ∨ ([] : List ChartColumn).length < 2) ∧
    (demoEntryOneDim.dimensions.length < 2) ∧
    (getDataModel { config := none, data := none } =
      .ok (emptyGDM "No data available for the chart.") ∧
    getDataModel { config := none, data := some ({ data := none } :: []) } =
      .ok (emptyGDM "No data available for the chart.") ∧
    getDataModel (mkChartModel [] [] [0, 1, 2] demoRows) =
      .ok (emptyGDM "Invalid column configuration. Ensure the first column is an attribute and the next two are measures.") ∧
    getDataModel { config := some { chartConfig := some [] }
                   data := some ({ data := some demoArr } :: []) } =
      .error .typeError ∧
    getDataModel { config := some { chartConfig := some (demoEntryOneDim :: []) }
                   data := some ({ data := some demoArr } :: []) } =
      .error .typeError ∧
    (∀ x0 y0 y1 : ChartColumn, ∀ xr yr : List ChartColumn,
      ∃ out, getDataModel (mkChartModel (x0 :: xr) (y0 :: y1 :: yr) [0, 1, 2]
          demoRows) = .ok out ∧
        out.dataModel.length = demoRows.length ∧ out.errors = [])) :=
  ⟨Or.inl rfl, by decide,
   C4_guards none [] demoArr [] [] [0, 1, 2] demoRows
     demoEntryOneDim [] (Or.inl rfl) (by decide)⟩

theorem findIndexJS_cons (p : α → Bool) (a : α) (l : List α) :
    findIndexJS p (a :: l) =
      if p a then 0
      else if findIndexJS p l = -1 then -1 else findIndexJS p l + 1 := rfl

theorem findIndexJS_nonneg_or (p : α → Bool) (l : List α) :
    0 ≤ findIndexJS p l ∨ findIndexJS p l = -1 := by
  induction l with
  | nil => exact Or.inr rfl
  | cons a l ih =>
    rw [findIndexJS_cons]
    by_cases hpa : p a = true
    · rw [if_pos hpa]
      exact Or.inl le_rfl
    · rw [if_neg hpa]
      by_cases hr : findIndexJS p l = -1
      · rw [if_pos hr]
        exact Or.inr rfl
      · rw [if_neg hr]
        rcases ih with h | h
        · exact Or.inl (by omega)
        · exact absurd h hr

theorem jsIndex_negOne (row : List JSVal) : jsIndex row (-1) = .undef := by
  rw [jsIndex, dif_neg]
  rintro ⟨h0, -⟩
  omega

theorem jsIndex_toNat (row : List JSVal) (k : Int) (hk : 0 ≤ k) :
    jsIndex row k = jsIndexNat row k.toNat := by
  unfold jsIndex jsIndexNat
  by_cases h : k.toNat < row.length
  · rw [dif_pos ⟨hk, h⟩, dif_pos h]
  · rw [dif_neg (fun hc => h hc.2), dif_neg h]

theorem jsIndexNat_zero_cons (r : JSVal) (rs : List JSVal) :
    jsIndexNat (r :: rs) 0 = r := by
  unfold jsIndexNat
  rw [dif_pos (by simp)]
  rfl

theorem jsIndex_zero_cons (r : JSVal) (rs : List JSVal) :
    jsIndex (r :: rs) 0 = r := by
  rw [jsIndex_toNat _ _ le_rfl]
  exact jsIndexNat_zero_cons r rs

theorem jsIndexNat_cons_succ (r : JSVal) (rs : List JSVal) (n : ℕ) :
    jsIndexNat (r :: rs) (n + 1) = jsIndexNat rs n := by
  unfold jsIndexNat
  by_cases h : n < rs.length
  · rw [dif_pos (by simpa using Nat.succ_lt_succ h), dif_pos h]
    rfl
  · rw [dif_neg (fun hc => h (by simpa using Nat.lt_of_succ_lt_succ hc)), dif_neg h]

/-- The identity-match lookup of `getDataForColumn` reads exactly the cell
associated with the column id, for rows satisfying the
`row.length = columns.length` invariant. -/
theorem identity_lookup_eq_assoc (cid : ℕ) (cols : List ℕ) (row : List JSVal)
    (hlen : row.length = cols.length) :
    jsIndex row (findIndexJS (fun colId => cid == colId) cols) =
      assocLookup cols row cid := by
  induction cols generalizing row with
  | nil =>
    rw [show findIndexJS (fun colId => cid == colId) [] = -1 from rfl,
      jsIndex_negOne]
    rfl
  | cons c cs ih =>
    cases row with
    | nil => exact absurd hlen (by simp)
    | cons r rs =>
      have hlen2 : rs.length = cs.length := by simpa using hlen
      rw [findIndexJS_cons]
      by_cases hpc : (cid == c) = true
      · rw [if_pos hpc]
        have hr : assocLookup (c :: cs) (r :: rs) cid = r := by
          simp [assocLookup, List.zip_cons_cons, List.lookup, hpc]
        rw [hr]
        exact jsIndex_zero_cons r rs
      · rw [if_neg hpc]
        have hassoc : assocLookup (c :: cs) (r :: rs) cid =
            assocLookup cs rs cid := by
          simp [assocLookup, List.zip_cons_cons, List.lookup, hpc, List.zip]
        rw [hassoc]
        by_cases hm1 : findIndexJS (fun colId => cid == colId) cs = -1
        · rw [if_pos hm1, jsIndex_negOne, ← ih rs hlen2, hm1, jsIndex_negOne]
        · rw [if_neg hm1]
          rcases findIndexJS_nonneg_or (fun colId => cid == colId) cs with hk | hk
          · rw [← ih rs hlen2, jsIndex_toNat _ _ (by omega), jsIndex_toNat _ _ hk]
            have hsh : (findIndexJS (fun colId => cid == colId) cs + 1).toNat =
                (findIndexJS (fun colId => cid == colId) cs).toNat + 1 := by omega
            rw [hsh, jsIndexNat_cons_succ]
          · exact absurd hk hm1

theorem lookup_eq_of_perm (a : ℕ) (l1 l2 : List (ℕ × JSVal))
    (hperm : l1.Perm l2) :
    (l1.map Prod.fst).Nodup → l1.lookup a = l2.lookup a := by
  induction hperm with
  | nil => intro _; rfl
  | cons x p ih =>
    obtain ⟨k, b⟩ := x
    intro hnd
    have hnd2 : (List.map Prod.fst _).Nodup :=
      (List.nodup_cons.mp (by simpa using hnd)).2
    by_cases hak : (a == k) = true
    · simp [List.lookup, hak]
    · simp only [List.lookup, hak]
      exact ih hnd2
  | swap x y l =>
    obtain ⟨kx, bx⟩ := x
    obtain ⟨ky, by2⟩ := y
    intro hnd
    have hxy : ky ≠ kx := by
      have h := hnd
      simp only [List.map_cons, List.nodup_cons] at h
      exact fun hc => h.1 (by simp [hc])
    by_cases hay : (a == ky) = true
    · have ha : a = ky := by simpa using hay
      subst ha
      have hax : (a == kx) = false := beq_eq_false_iff_ne.mpr hxy
      simp [List.lookup, hay, hax]
    · by_cases hax : (a == kx) = true
      · simp [List.lookup, hay, hax]
      · simp [List.lookup, hay, hax]
  | trans p1 p2 ih1 ih2 =>
    intro hnd
    exact (ih1 hnd).trans (ih2 (((p1.map Prod.fst).nodup_iff).mp hnd))

theorem getDataForColumn_perm_aux (column : ChartColumn) (cols1 cols2 : List ℕ)
    (hnd : cols1.Nodup) :
    ∀ l1 l2 : List (List JSVal),
      List.Forall₂ (fun r1 r2 : List JSVal =>
        r1.length = cols1.length ∧ r2.length = cols2.length ∧
        (cols1.zip r1).Perm (cols2.zip r2)) l1 l2 →
      l1.map (fun row =>
          jsIndex row (findIndexJS (fun colId => column.id == colId) cols1)) =
      l2.map (fun row =>
          jsIndex row (findIndexJS (fun colId => column.id == colId) cols2)) := by
  intro l1 l2 hassoc
  induction hassoc with
  | nil => rfl
  | cons hrel hrest ih =>
    obtain ⟨hlen1, hlen2, hperm⟩ := hrel
    simp only [List.map_cons]
    rw [identity_lookup_eq_assoc column.id cols1 _ hlen1,
      identity_lookup_eq_assoc column.id cols2 _ hlen2, assocLookup, assocLookup,
      lookup_eq_of_perm column.id _ _ hperm
        (by rw [List.map_fst_zip _ _ (le_of_eq hlen1.symm)]; exact hnd), ih]

/-- C7 (amended): `getDataForColumn` locates each row's cell by identity
match within the row's column identifier sequence, so its result is
invariant under any permutation of the columns that preserves the
identifier-to-cell association (with distinct ids and well-formed row
lengths); but `getDataModel`'s per-record extraction indexes each row
positionally by the raw column id (`row[yAxisColumns[0].id]`), which is not
an identity lookup and not permutation-invariant. -/
theorem C7_identity_vs_positional
    (column : ChartColumn) (arr1 arr2 : DataArr)
    (hnd : arr1.columns.Nodup)
    (hassoc : List.Forall₂ (fun r1 r2 : List JSVal =>
      r1.length = arr1.columns.length ∧ r2.length = arr2.columns.length ∧
      (arr1.columns.zip r1).Perm (arr2.columns.zip r2))
      arr1.dataValue arr2.dataValue) :
    getDataForColumn column arr1 = getDataForColumn column arr2 ∧
    (∀ x0 y0 y1 : ChartColumn, ∀ tv : JSVal, ∀ row : List JSVal,
      (deriveRecord x0 y0 y1 tv row).value = jsIndexNat row y0.id) := by
  refine ⟨?_, fun x0 y0 y1 tv row => rfl⟩
  exact getDataForColumn_perm_aux column arr1.columns arr2.columns hnd
    arr1.dataValue arr2.dataValue hassoc

/-- C7 counterexample: for two association-equal column permutations,
`getDataForColumn` extracts the same cell (20, the cell identified by id 0),
but `getDataModel`'s records carry `row[0]` — 10 under one ordering, 20
under the other — so the extracted current value is positional, not an
identity lookup, and not permutation-invariant. -/
theorem C7_counterexample :
    (permArrA.columns.zip [JSVal.num 10, .num 20, .str "A"]).Perm
      (permArrB.columns.zip [JSVal.num 20, .num 10, .str "A"]) ∧
    permArrA.columns.Nodup ∧
    getDataForColumn ⟨0⟩ permArrA = [.num 20] ∧
    getDataForColumn ⟨0⟩ permArrB = [.num 20] ∧
    (getDataModel (mkChartModel [⟨2⟩] [⟨0⟩, ⟨1⟩] permArrA.columns
        permArrA.dataValue)).toOption.map
      (fun o => o.dataModel.map fun r => r.value) = some [.num 10] ∧
    (getDataModel (mkChartModel [⟨2⟩] [⟨0⟩, ⟨1⟩] permArrB.columns
        permArrB.dataValue)).toOption.map
      (fun o => o.dataModel.map fun r => r.value) = some [.num 20] ∧
    JSVal.num 10 ≠ JSVal.num 20 := by
  refine ⟨by decide, by decide, by decide, by decide, ?_, ?_, by decide⟩
  · show (getDataModel (mkChartModel [⟨2⟩] [⟨0⟩, ⟨1⟩] [1, 0, 2]
        [[.num 10, .num 20, .str "A"]])).toOption.map
      (fun o => o.dataModel.map fun r => r.value) = some [.num 10]
    rw [getDataModel_mk]
    have hval : (deriveRecord ⟨2⟩ ⟨0⟩ ⟨1⟩
        (totalValueOf ⟨0⟩ ⟨[1, 0, 2], [[.num 10, .num 20, .str "A"]]⟩)
        [.num 10, .num 20, .str "A"]).value = .num 10 := by
      rw [deriveRecord_value]
      decide
    simp [Except.toOption, hval]
  · show (getDataModel (mkChartModel [⟨2⟩] [⟨0⟩, ⟨1⟩] [0, 1, 2]
        [[.num 20, .num 10, .str "A"]])).toOption.map
      (fun o => o.dataModel.map fun r => r.value) = some [.num 20]
    rw [getDataModel_mk]
    have hval : (deriveRecord ⟨2⟩ ⟨0⟩ ⟨1⟩
        (totalValueOf ⟨0⟩ ⟨[0, 1, 2], [[.num 20, .num 10, .str "A"]]⟩)
        [.num 20, .num 10, .str "A"]).value = .num 20 := by
      rw [deriveRecord_value]
      decide
    simp [Except.toOption, hval]

/-- Witness for C7 at the two permuted three-column models. -/
theorem C7_identity_vs_positional_witness :
    permArrA.columns.Nodup ∧
    List.Forall₂ (fun r1 r2 : List JSVal =>
      r1.length = permArrA.columns.length ∧ r2.length = permArrB.columns.length ∧
      (permArrA.columns.zip r1).Perm (permArrB.columns.zip r2))
      permArrA.dataValue permArrB.dataValue ∧
    (getDataForColumn ⟨0⟩ permArrA = getDataForColumn ⟨0⟩ permArrB ∧
    (∀ x0 y0 y1 : ChartColumn, ∀ tv : JSVal, ∀ row : List JSVal,
      (deriveRecord x0 y0 y1 tv row).value = jsIndexNat row y0.id)) :=
  ⟨by decide,
   List.Forall₂.cons ⟨by decide, by decide, by decide⟩ List.Forall₂.nil,
   C7_identity_vs_positional ⟨0⟩ permArrA permArrB (by decide)
     (List.Forall₂.cons ⟨by decide, by decide, by decide⟩ List.Forall₂.nil)⟩
